import Mathlib

/-!
Verification of the homograph domain analyzer
(src/homograph_analyzer/homograph_domain_analyzer.py).

The Python program is shallowly embedded below.  Strings are modelled by
Lean `String`/`List Char` (one `Char` per Python character); Python string
manipulation is re-implemented on `List Char` so that every definition is
executable and kernel-reducible.  Python `datetime` instants are modelled
as integer seconds since the epoch; `timedelta.days` is floor division by
86400.  Network effects (DNS answers, WHOIS responses or exceptions) are
passed in as explicit oracle values.  Python's `str.lower` is modelled on
the ASCII range (the generator's own lowercase pipeline only ever relies
on ASCII case folding).
-/

/-- Model of Python `str.lower` on a character list (ASCII case folding). -/
def pyLowerL (l : List Char) : List Char := l.map Char.toLower

/-- Model of Python `str.strip` on a character list: drop leading and
trailing whitespace. -/
def pyStripL (l : List Char) : List Char :=
  ((l.dropWhile Char.isWhitespace).reverse.dropWhile Char.isWhitespace).reverse

/-- Python `name.lower().strip()` as used by `_add_variant`, packaged on
`String`. -/
def pyNorm (s : String) : String := String.mk (pyStripL (pyLowerL s.data))

/-- A single-quote character, used when rebuilding the `detail` strings of
the Python f-strings. -/
def sqt : String := String.mk [Char.ofNat 39]

/-- Python slice splicing `name[:i] + repl + name[i+1:]` on character
lists. -/
def spliceAt (l : List Char) (i : Nat) (repl : List Char) : List Char :=
  l.take i ++ repl ++ l.drop (i + 1)

/-- The character list following the first occurrence of `sep` in `l`
(`none` when `sep` does not occur).  `(afterFirst sep l).isSome` models
Python `sep in s`. -/
def afterFirst (sep : List Char) : List Char → Option (List Char)
  | [] => if sep.isPrefixOf ([] : List Char) then some [] else none
  | c :: rest =>
    if sep.isPrefixOf (c :: rest) then some ((c :: rest).drop sep.length)
    else afterFirst sep rest

/-- The prefix of `l` before the first occurrence of `sep` (all of `l`
when `sep` does not occur).  `upToFirst sep (afterFirst sep l)` models
Python `s.split(sep)[1]`. -/
def upToFirst (sep : List Char) : List Char → List Char
  | [] => []
  | c :: rest =>
    if sep.isPrefixOf (c :: rest) then []
    else c :: upToFirst sep rest

/-- Model of Python `s.replace(pat, repl, 1)`: replace the first
occurrence of `pat` by `repl`. -/
def replaceFirstL (pat repl : List Char) : List Char → List Char
  | [] => if pat = [] then repl else []
  | c :: rest =>
    if pat.isPrefixOf (c :: rest) then repl ++ (c :: rest).drop pat.length
    else c :: replaceFirstL pat repl rest

/-- Model of Python `s.rstrip(chars)`: drop trailing characters belonging
to `cs`. -/
def pyRstripSet (cs : List Char) (l : List Char) : List Char :=
  (l.reverse.dropWhile (fun c => cs.contains c)).reverse

/-- Model of Python `s.lstrip(chars)`: drop leading characters belonging
to `cs`. -/
def pyLstripSet (cs : List Char) (l : List Char) : List Char :=
  l.dropWhile (fun c => cs.contains c)

/-- Split a character list at its last `.`: `lastDotSplit l = some (n, t)`
when `l = n ++ [.] ++ t` with no `.` in `t`; `none` when `l` has no dot.
This models the fallback branch `domain.rsplit('.', 1)` of
`_parse_domain`. -/
def lastDotSplit : List Char → Option (List Char × List Char)
  | [] => none
  | c :: rest =>
    match lastDotSplit rest with
    | some (a, b) => some (c :: a, b)
    | none => if c = '.' then some ([], rest) else none

/-- Lookup in one of the generator's character-mapping tables; `some`
exactly when Python `char in table`. -/
def tableLookup (t : List (Char × List String)) (c : Char) : Option (List String) :=
  (t.find? (fun kv => kv.1 == c)).map (fun kv => kv.2)

/-! ## The generator's mapping tables (`HOMOGRAPH_MAPPINGS` etc.),
transcribed from the source. -/

/-- `HOMOGRAPH_MAPPINGS`: ASCII to Unicode lookalikes. -/
def HOMOGRAPH_MAPPINGS : List (Char × List String) := [
  ('a', ["а", "ɑ", "α", "ạ", "ą", "à", "á", "â", "ã", "ä", "å", "ā", "ă", "ǎ", "ȁ", "ȃ", "ả", "ấ", "ầ", "ẩ", "ẫ", "ậ", "ắ", "ằ", "ẳ", "ẵ", "ặ"]),
  ('b', ["Ь", "ƅ", "Ԁ", "ḃ", "ḅ", "ḇ", "ƀ"]),
  ('c', ["с", "ϲ", "ċ", "ç", "ć", "ĉ", "č", "ƈ", "ȼ"]),
  ('d', ["ԁ", "ɗ", "ḋ", "ḍ", "ḏ", "ḑ", "ḓ", "ď", "đ"]),
  ('e', ["е", "ё", "ẹ", "ę", "è", "é", "ê", "ë", "ē", "ĕ", "ė", "ě", "ȅ", "ȇ", "ẻ", "ẽ", "ế", "ề", "ể", "ễ", "ệ"]),
  ('f', ["ƒ", "ḟ"]),
  ('g', ["ɡ", "ġ", "ģ", "ĝ", "ğ", "ǧ", "ǵ", "ḡ"]),
  ('h', ["һ", "ḣ", "ḥ", "ḧ", "ḩ", "ḫ", "ĥ", "ȟ", "ħ"]),
  ('i', ["і", "ı", "ɩ", "ì", "í", "î", "ï", "ĩ", "ī", "ĭ", "į", "ǐ", "ȉ", "ȋ", "ỉ", "ị"]),
  ('j', ["ј", "ĵ", "ǰ"]),
  ('k', ["κ", "ḱ", "ḳ", "ḵ", "ķ", "ĸ"]),
  ('l', ["ӏ", "ḷ", "ḹ", "ḻ", "ḽ", "ĺ", "ļ", "ľ", "ŀ", "ł", "1", "|"]),
  ('m', ["ṁ", "ṃ", "ɱ", "rn"]),
  ('n', ["ո", "ṅ", "ṇ", "ṉ", "ṋ", "ń", "ņ", "ň", "ŉ", "ɲ", "ƞ"]),
  ('o', ["о", "ο", "σ", "0", "ọ", "ø", "ò", "ó", "ô", "õ", "ö", "ō", "ŏ", "ő", "ơ", "ǒ", "ǫ", "ǭ", "ȍ", "ȏ", "ȯ", "ȱ", "ỏ", "ố", "ồ", "ổ", "ỗ", "ộ", "ớ", "ờ", "ở", "ỡ", "ợ"]),
  ('p', ["р", "ρ", "ṕ", "ṗ", "ƥ"]),
  ('q', ["ԛ", "ɋ"]),
  ('r', ["г", "ṙ", "ṛ", "ṝ", "ṟ", "ŕ", "ŗ", "ř", "ȑ", "ȓ"]),
  ('s', ["ѕ", "ṡ", "ṣ", "ṥ", "ṧ", "ṩ", "ś", "ŝ", "ş", "š", "ș", "5", "$"]),
  ('t', ["τ", "ṫ", "ṭ", "ṯ", "ṱ", "ţ", "ť", "ŧ", "ț", "7"]),
  ('u', ["υ", "ս", "ụ", "ù", "ú", "û", "ü", "ũ", "ū", "ŭ", "ů", "ű", "ų", "ư", "ǔ", "ǖ", "ǘ", "ǚ", "ǜ", "ȕ", "ȗ", "ủ", "ứ", "ừ", "ử", "ữ", "ự"]),
  ('v', ["ν", "ѵ", "ṽ", "ṿ"]),
  ('w', ["ԝ", "ẁ", "ẃ", "ẅ", "ẇ", "ẉ", "ŵ", "vv"]),
  ('x', ["х", "χ", "ẋ", "ẍ"]),
  ('y', ["у", "γ", "ỳ", "ý", "ŷ", "ÿ", "ỹ", "ȳ", "ẏ", "ỵ", "ỷ"]),
  ('z', ["ᴢ", "ź", "ż", "ž", "ẑ", "ẓ", "ẕ", "ƶ"]),
  ('A', ["А", "Α", "Ạ", "Ą", "À", "Á", "Â", "Ã", "Ä", "Å", "Ā", "Ă", "Ǎ"]),
  ('B', ["В", "Β", "Ḃ", "Ḅ", "Ḇ", "Ɓ"]),
  ('C', ["С", "Ϲ", "Ċ", "Ç", "Ć", "Ĉ", "Č"]),
  ('E', ["Е", "Ε", "Ẹ", "Ę", "È", "É", "Ê", "Ë", "Ē", "Ĕ", "Ė", "Ě"]),
  ('H', ["Н", "Η", "Ḣ", "Ḥ", "Ḧ", "Ḩ", "Ḫ", "Ĥ"]),
  ('I', ["І", "Ι", "Ì", "Í", "Î", "Ï", "Ĩ", "Ī", "Ĭ", "İ", "Į", "1", "l", "|"]),
  ('K', ["Κ", "К", "Ḱ", "Ḳ", "Ḵ", "Ķ"]),
  ('M', ["Μ", "М", "Ṁ", "Ṃ"]),
  ('N', ["Ν", "Ṅ", "Ṇ", "Ṉ", "Ṋ", "Ń", "Ņ", "Ň"]),
  ('O', ["О", "Ο", "0", "Ọ", "Ø", "Ò", "Ó", "Ô", "Õ", "Ö", "Ō", "Ŏ", "Ő", "Ơ"]),
  ('P', ["Р", "Ρ", "Ṕ", "Ṗ"]),
  ('S', ["Ѕ", "Ṡ", "Ṣ", "Ṥ", "Ṧ", "Ṩ", "Ś", "Ŝ", "Ş", "Š", "5", "$"]),
  ('T', ["Τ", "Т", "Ṫ", "Ṭ", "Ṯ", "Ṱ", "Ţ", "Ť", "Ŧ", "7"]),
  ('X', ["Χ", "Х", "Ẋ", "Ẍ"]),
  ('Y', ["Υ", "У", "Ỳ", "Ý", "Ŷ", "Ÿ", "Ỹ", "Ȳ", "Ẏ"]),
  ('Z', ["Ζ", "Ź", "Ż", "Ž", "Ẑ", "Ẓ", "Ẕ"])]

/-- `LEETSPEAK_MAPPINGS`. -/
def LEETSPEAK_MAPPINGS : List (Char × List String) := [
  ('a', ["4", "@"]),
  ('b', ["8"]),
  ('e', ["3"]),
  ('g', ["9", "6"]),
  ('i', ["1", "!", "|"]),
  ('l', ["1", "|"]),
  ('o', ["0"]),
  ('s', ["5", "$"]),
  ('t', ["7", "+"]),
  ('z', ["2"])]

/-- `KEYBOARD_TYPOS` (QWERTY layout). -/
def KEYBOARD_TYPOS : List (Char × List String) := [
  ('a', ["q", "w", "s", "z"]),
  ('b', ["v", "g", "h", "n"]),
  ('c', ["x", "d", "f", "v"]),
  ('d', ["s", "e", "r", "f", "c", "x"]),
  ('e', ["w", "s", "d", "r"]),
  ('f', ["d", "r", "t", "g", "v", "c"]),
  ('g', ["f", "t", "y", "h", "b", "v"]),
  ('h', ["g", "y", "u", "j", "n", "b"]),
  ('i', ["u", "j", "k", "o"]),
  ('j', ["h", "u", "i", "k", "m", "n"]),
  ('k', ["j", "i", "o", "l", "m"]),
  ('l', ["k", "o", "p"]),
  ('m', ["n", "j", "k"]),
  ('n', ["b", "h", "j", "m"]),
  ('o', ["i", "k", "l", "p"]),
  ('p', ["o", "l"]),
  ('q', ["w", "a"]),
  ('r', ["e", "d", "f", "t"]),
  ('s', ["a", "w", "e", "d", "x", "z"]),
  ('t', ["r", "f", "g", "y"]),
  ('u', ["y", "h", "j", "i"]),
  ('v', ["c", "f", "g", "b"]),
  ('w', ["q", "a", "s", "e"]),
  ('x', ["z", "s", "d", "c"]),
  ('y', ["t", "g", "h", "u"]),
  ('z', ["a", "s", "x"])]

/-- `PHONETIC_SUBSTITUTIONS`, in Python dict insertion order. -/
def PHONETIC_SUBSTITUTIONS : List (String × List String) := [
  ("f", ["ph"]),
  ("ph", ["f"]),
  ("ck", ["k", "c"]),
  ("k", ["c", "ck"]),
  ("c", ["k", "s"]),
  ("s", ["c", "z"]),
  ("z", ["s"]),
  ("x", ["ks", "cks"]),
  ("w", ["vv", "uu"]),
  ("i", ["y", "ee"]),
  ("y", ["i", "ie"]),
  ("oo", ["u"]),
  ("u", ["oo"])]

/-- `ALTERNATIVE_TLDS`. -/
def ALTERNATIVE_TLDS : List String := [
  "com", "net", "org", "info", "biz", "co", "io", "app", "dev", "ai",
  "xyz", "online", "site", "website", "tech", "store", "shop", "club",
  "uk", "us", "de", "fr", "it", "es", "nl", "ru", "cn", "jp", "kr",
  "in", "au", "ca", "br", "mx", "pl", "cz", "ch", "at", "be", "se",
  "co.uk", "com.au", "co.in", "co.jp", "com.br", "co.nz", "com.mx",
  "top", "work", "click", "link", "live", "world", "today", "email",
  "best", "win", "vip", "ltd", "group", "company", "solutions"]

/-- `PHISHING_PREFIXES`. -/
def PHISHING_PREFIXES : List String := [
  "www-", "www.", "login-", "signin-", "secure-", "account-", "my-",
  "portal-", "support-", "help-", "auth-", "verify-", "update-",
  "service-", "online-", "web-", "mobile-", "app-", "mail-", "admin-"]

/-- `PHISHING_SUFFIXES`. -/
def PHISHING_SUFFIXES : List String := [
  "-login", "-signin", "-secure", "-account", "-portal", "-support",
  "-help", "-auth", "-verify", "-update", "-service", "-online",
  "-web", "-mobile", "-app", "-mail", "-admin", "-official", "-real",
  "-security", "-center", "-team", "-group", "-inc", "-corp", "-ltd"]

/-! ## Data model -/

/-- `DomainVariant` dataclass.  `datetime` fields are modelled as integer
epoch seconds; dictionaries as ordered association lists. -/
structure DomainVariant where
  original_domain : String
  variant_domain : String
  technique : String
  technique_detail : String := ""
  is_registered : Bool := false
  dns_records : List (String × List String) := []
  whois_data : List (String × String) := []
  creation_date : Option Int := none
  registrar : Option String := none
  domain_age_days : Option Int := none
  trust_level : String := "unknown"
  risk_score : Int := 0
  error : Option String := none
deriving Repr, DecidableEq

instance : Inhabited DomainVariant :=
  ⟨{ original_domain := "", variant_domain := "", technique := "" }⟩

/-- `AnalysisConfig` dataclass (the variant cap is a count, hence `Nat`). -/
structure AnalysisConfig where
  target_domain : String
  trust_threshold_days : Int := 730
  max_variants : Nat := 1000
  check_dns : Bool := true
  check_whois : Bool := true
  threads : Nat := 10
  timeout : Int := 5
  include_unregistered : Bool := false
  techniques : List String := ["all"]
  output_format : String := "console"
  output_file : Option String := none
  verbose : Bool := false
deriving Repr

/-! ## Domain parser (`HomographGenerator._parse_domain`) -/

/-- `domain.split('://')[1]` guarded by `'://' in domain`. -/
def stripSchemeL (l : List Char) : List Char :=
  match afterFirst [':', '/', '/'] l with
  | some r => upToFirst [':', '/', '/'] r
  | none => l

/-- `domain.split('/')[0]` guarded by `'/' in domain`. -/
def stripPathL (l : List Char) : List Char :=
  if l.contains '/' then l.takeWhile (fun c => c ≠ '/') else l

/-- Drop one leading `www.` label. -/
def stripWwwL (l : List Char) : List Char :=
  if List.isPrefixOf ['w', 'w', 'w', '.'] l then l.drop 4 else l

/-- The cleaned-up string `_parse_domain` splits: lowercased, stripped,
scheme and path removed, one leading `www.` removed. -/
def strippedTarget (domain : String) : List Char :=
  stripWwwL (stripPathL (stripSchemeL (pyStripL (pyLowerL domain.data))))

/-- `HomographGenerator._parse_domain`, in the environment without
`tldextract` (the in-repo fallback branch): split at the last dot, or
default the TLD to `com`.  The function is total; the Python original
raises nothing either. -/
def _parse_domain (domain : String) : String × String :=
  let d := strippedTarget domain
  match lastDotSplit d with
  | some (n, t) => (String.mk n, String.mk t)
  | none => (String.mk d, "com")

/-! ## Variant generator -/

/-- One candidate handed to `_add_variant` by a technique: the raw name,
TLD, technique tag and audit detail. -/
structure Proposal where
  name : String
  tld : String
  technique : String
  detail : String
deriving Repr, DecidableEq

/-- Quote a string between single quotes, as the Python f-strings do. -/
def qd (s : String) : String := sqt ++ s ++ sqt

/-- `_generate_homograph` (built-in mapping branch; the optional
`confusable_homoglyphs` library is absent from the environment). -/
def homographProposals (name : List Char) (tld : String) : List Proposal :=
  name.enum.flatMap (fun ic =>
    match tableLookup HOMOGRAPH_MAPPINGS ic.2 with
    | none => []
    | some reps => (reps.take 3).map (fun r =>
        { name := String.mk (spliceAt name ic.1 r.data), tld := tld,
          technique := "homograph",
          detail := "Replaced " ++ qd (String.mk [ic.2]) ++ " with " ++ qd r }))

/-- `_generate_leetspeak`. -/
def leetspeakProposals (name : List Char) (tld : String) : List Proposal :=
  name.enum.flatMap (fun ic =>
    match tableLookup LEETSPEAK_MAPPINGS ic.2 with
    | none => []
    | some reps => reps.map (fun r =>
        { name := String.mk (spliceAt name ic.1 r.data), tld := tld,
          technique := "leetspeak",
          detail := "Replaced " ++ qd (String.mk [ic.2]) ++ " with " ++ qd r }))

/-- `_generate_typo` (two substitutes per key). -/
def typoProposals (name : List Char) (tld : String) : List Proposal :=
  name.enum.flatMap (fun ic =>
    match tableLookup KEYBOARD_TYPOS ic.2 with
    | none => []
    | some reps => (reps.take 2).map (fun r =>
        { name := String.mk (spliceAt name ic.1 r.data), tld := tld,
          technique := "typo",
          detail := "Keyboard typo: " ++ qd (String.mk [ic.2]) ++ " -> " ++ qd r }))

/-- `_generate_phonetic`: first-occurrence substring replacement. -/
def phoneticProposals (name : List Char) (tld : String) : List Proposal :=
  PHONETIC_SUBSTITUTIONS.flatMap (fun pr =>
    if (afterFirst pr.1.data name).isSome then
      pr.2.map (fun r =>
        { name := String.mk (replaceFirstL pr.1.data r.data name), tld := tld,
          technique := "phonetic",
          detail := "Phonetic: " ++ qd pr.1 ++ " -> " ++ qd r })
    else [])

/-- `_generate_repetition`: double each alphabetic character. -/
def repetitionProposals (name : List Char) (tld : String) : List Proposal :=
  name.enum.flatMap (fun ic =>
    if ic.2.isAlpha then
      [{ name := String.mk (spliceAt name ic.1 [ic.2, ic.2]), tld := tld,
         technique := "repetition",
         detail := "Doubled " ++ qd (String.mk [ic.2]) ++ " at position " ++ toString ic.1 }]
    else [])

/-- `_generate_omission`: drop each character (result must be non-empty). -/
def omissionProposals (name : List Char) (tld : String) : List Proposal :=
  (List.range name.length).flatMap (fun i =>
    let newName := name.take i ++ name.drop (i + 1)
    if newName = [] then []
    else
      [{ name := String.mk newName, tld := tld, technique := "omission",
         detail := "Omitted " ++ qd (String.mk [name.getD i ' ']) ++ " at position " ++ toString i }])

/-- `_generate_insertion`: insert each of `aeiourstnl` at each gap. -/
def insertionProposals (name : List Char) (tld : String) : List Proposal :=
  (List.range (name.length + 1)).flatMap (fun i =>
    "aeiourstnl".data.map (fun c =>
      { name := String.mk (name.take i ++ c :: name.drop i), tld := tld,
        technique := "insertion",
        detail := "Inserted " ++ qd (String.mk [c]) ++ " at position " ++ toString i }))

/-- `_generate_transposition`: swap each adjacent pair. -/
def transpositionProposals (name : List Char) (tld : String) : List Proposal :=
  (List.range (name.length - 1)).flatMap (fun i =>
    match name.drop i with
    | a :: b :: _ =>
      [{ name := String.mk (name.take i ++ b :: a :: name.drop (i + 2)), tld := tld,
         technique := "transposition",
         detail := "Swapped " ++ qd (String.mk [a]) ++ " and " ++ qd (String.mk [b]) }]
    | _ => [])

/-- `_generate_hyphenation`: hyphen at each interior position, plus the
hyphen-free form when the name already contains hyphens. -/
def hyphenationProposals (name : List Char) (tld : String) : List Proposal :=
  (List.range' 1 (name.length - 1)).map (fun i =>
    { name := String.mk (name.take i ++ '-' :: name.drop i), tld := tld,
      technique := "hyphenation",
      detail := "Hyphen inserted at position " ++ toString i }) ++
  (if name.contains '-' then
    [{ name := String.mk (name.filter (fun c => c ≠ '-')), tld := tld,
       technique := "hyphenation", detail := "Removed hyphens" }]
   else [])

/-- `_generate_tld`: alternative TLDs differing from the original. -/
def tldProposals (name : List Char) (tld : String) : List Proposal :=
  ALTERNATIVE_TLDS.flatMap (fun t =>
    if t ≠ tld then
      [{ name := String.mk name, tld := t, technique := "tld_swap",
         detail := "Changed TLD from " ++ qd ("." ++ tld) ++ " to " ++ qd ("." ++ t) }]
    else [])

/-- `_generate_prefix`: phishing prefixes, stripped of trailing `-`/`.`. -/
def prefixProposals (name : List Char) (tld : String) : List Proposal :=
  PHISHING_PREFIXES.map (fun p =>
    { name := String.mk (pyRstripSet ['-', '.'] p.data ++ name), tld := tld,
      technique := "prefix", detail := "Added prefix " ++ qd p })

/-- `_generate_suffix`: phishing suffixes, stripped of leading `-`. -/
def suffixProposals (name : List Char) (tld : String) : List Proposal :=
  PHISHING_SUFFIXES.map (fun p =>
    { name := String.mk (name ++ pyLstripSet ['-'] p.data), tld := tld,
      technique := "suffix", detail := "Added suffix " ++ qd p })

/-- `_generate_vowel_swap`: replace each vowel with each other vowel. -/
def vowelSwapProposals (name : List Char) (tld : String) : List Proposal :=
  name.enum.flatMap (fun ic =>
    if "aeiou".data.contains ic.2 then
      ("aeiou".data.filter (fun v => v ≠ ic.2)).map (fun v =>
        { name := String.mk (spliceAt name ic.1 [v]), tld := tld,
          technique := "vowel_swap",
          detail := "Swapped " ++ qd (String.mk [ic.2]) ++ " with " ++ qd (String.mk [v]) })
    else [])

/-- `_generate_double_char`: reduce each run of two identical characters. -/
def doubleCharProposals (name : List Char) (tld : String) : List Proposal :=
  (List.range (name.length - 1)).flatMap (fun i =>
    match name.drop i with
    | a :: b :: rest =>
      if a = b then
        [{ name := String.mk (name.take i ++ b :: rest), tld := tld,
           technique := "double_char",
           detail := "Reduced double " ++ qd (String.mk [a]) }]
      else []
    | _ => [])

/-- `_generate_bitsquatting`: flip each of the eight low bits of each
character; keep results that are lowercase ASCII letters. -/
def bitsquattingProposals (name : List Char) (tld : String) : List Proposal :=
  name.enum.flatMap (fun ic =>
    (List.range 8).flatMap (fun bit =>
      let flipped := ic.2.toNat ^^^ (1 <<< bit)
      if 97 ≤ flipped ∧ flipped ≤ 122 then
        let nc := Char.ofNat flipped
        if nc ≠ ic.2 then
          [{ name := String.mk (spliceAt name ic.1 [nc]), tld := tld,
             technique := "bitsquatting",
             detail := "Bit flip: " ++ qd (String.mk [ic.2]) ++ " -> " ++ qd (String.mk [nc]) }]
        else []
      else []))

/-- `_generate_subdomain`: the original name as a label under `<sub>.com`. -/
def subdomainProposals (name : List Char) (_tld : String) : List Proposal :=
  ["login", "secure", "account", "auth", "my", "portal"].map (fun sub =>
    { name := String.mk name ++ "." ++ sub, tld := "com",
      technique := "subdomain",
      detail := "Domain as subdomain: " ++ sub ++ ".com" })

/-- Dispatch on the technique name, as `getattr(self, f'_generate_{t}')`
does; unknown names contribute nothing. -/
def techniqueProposals (domain_name tld : String) (t : String) : List Proposal :=
  if t = "homograph" then homographProposals domain_name.data tld
  else if t = "leetspeak" then leetspeakProposals domain_name.data tld
  else if t = "typo" then typoProposals domain_name.data tld
  else if t = "phonetic" then phoneticProposals domain_name.data tld
  else if t = "repetition" then repetitionProposals domain_name.data tld
  else if t = "omission" then omissionProposals domain_name.data tld
  else if t = "insertion" then insertionProposals domain_name.data tld
  else if t = "transposition" then transpositionProposals domain_name.data tld
  else if t = "hyphenation" then hyphenationProposals domain_name.data tld
  else if t = "tld" then tldProposals domain_name.data tld
  else if t = "prefix" then prefixProposals domain_name.data tld
  else if t = "suffix" then suffixProposals domain_name.data tld
  else if t = "vowel_swap" then vowelSwapProposals domain_name.data tld
  else if t = "double_char" then doubleCharProposals domain_name.data tld
  else if t = "bitsquatting" then bitsquattingProposals domain_name.data tld
  else if t = "subdomain" then subdomainProposals domain_name.data tld
  else []

/-- The fixed technique order substituted for `all`. -/
def allTechniques : List String :=
  ["homograph", "leetspeak", "typo", "phonetic",
   "repetition", "omission", "insertion", "transposition",
   "hyphenation", "tld", "prefix", "suffix", "vowel_swap",
   "double_char", "bitsquatting", "subdomain"]

/-- `generate_all` replaces the configured list by the full fixed list
when it contains `all`. -/
def effectiveTechniques (ts : List String) : List String :=
  if "all" ∈ ts then allTechniques else ts

/-- Every `_add_variant` call one `generate_all` run makes, in order. -/
def generatorProposals (domain_name tld : String) (ts : List String) : List Proposal :=
  (effectiveTechniques ts).flatMap (techniqueProposals domain_name tld)

/-- Generator state: the parsed target and the emitted-set
(`generated_variants`, modelled as the list of strings inserted so far,
newest first) plus the cap. -/
structure GenState where
  domain_name : String
  tld : String
  generated_variants : List String
  max_variants : Nat
deriving Repr, DecidableEq

/-- `HomographGenerator._add_variant`: normalize, reject empty parts, the
original, duplicates, and anything past the cap; otherwise record and
wrap the candidate. -/
def _add_variant (st : GenState) (name tld technique detail : String) :
    GenState × Option DomainVariant :=
  let name := pyNorm name
  let tld := pyNorm tld
  if name = "" ∨ tld = "" then (st, none)
  else
    let full_domain := name ++ "." ++ tld
    if full_domain = st.domain_name ++ "." ++ st.tld then (st, none)
    else if full_domain ∈ st.generated_variants then (st, none)
    else if st.generated_variants.length ≥ st.max_variants then (st, none)
    else
      ({ st with generated_variants := full_domain :: st.generated_variants },
       some { original_domain := st.domain_name ++ "." ++ st.tld,
              variant_domain := full_domain,
              technique := technique,
              technique_detail := detail })

/-- Thread `_add_variant` over a proposal list, keeping the variants it
returns, in order. -/
def runAdds (st : GenState) : List Proposal → GenState × List DomainVariant
  | [] => (st, [])
  | p :: ps =>
    match _add_variant st p.name p.tld p.technique p.detail with
    | (st1, none) => runAdds st1 ps
    | (st1, some v) =>
      let r := runAdds st1 ps
      (r.1, v :: r.2)

/-- The initial generator state for a configuration
(`HomographGenerator.__init__`). -/
def initState (cfg : AnalysisConfig) : GenState :=
  { domain_name := (_parse_domain cfg.target_domain).1,
    tld := (_parse_domain cfg.target_domain).2,
    generated_variants := [],
    max_variants := cfg.max_variants }

/-- `HomographGenerator.generate_all` for a fresh generator. -/
def generate_all (cfg : AnalysisConfig) : List DomainVariant :=
  (runAdds (initState cfg)
    (generatorProposals (_parse_domain cfg.target_domain).1
      (_parse_domain cfg.target_domain).2 cfg.techniques)).2

/-! ## Domain analyzer (`DomainAnalyzer`) -/

/-- `DomainAnalyzer.calculate_trust_level`: the age-bucket table.  The
configured threshold is the only non-hard-coded boundary. -/
def calculate_trust_level (trust_threshold_days : Int) (domain_age_days : Option Int) :
    String × Int :=
  match domain_age_days with
  | none => ("unknown", 50)
  | some age =>
    if age < 30 then ("critical", 95)
    else if age < 90 then ("high_risk", 85)
    else if age < 180 then ("suspicious", 70)
    else if age < 365 then ("low_trust", 55)
    else if age < trust_threshold_days then ("moderate", 35)
    else ("established", 15)

/-- A Python value that can sit in a WHOIS record's `creation_date`
field: `None`, a `datetime` (epoch seconds), a string, or a list of such
values. -/
inductive PyDate where
  | pynone
  | dt (epochSec : Int)
  | str (s : String)
  | pylist (l : List PyDate)

/-- Python truthiness for the shapes above (`None`, `""` and `[]` are
falsy; every `datetime` is truthy). -/
def pyTruthy : PyDate → Bool
  | .pynone => false
  | .dt _ => true
  | .str s => s != ""
  | .pylist l => !l.isEmpty

/-- Python `str()` rendering, used only as the input of the `%Y-%m-%d`
parse.  A `datetime` never reaches the parse (the `isinstance` check
takes it verbatim), and the `str()` of a `datetime` or of a list is not
of the `%Y-%m-%d` shape in Python either, so a shape-marker rendering is
faithful: both sides make the parse fail. -/
def pyStr : PyDate → String
  | .pynone => "None"
  | .dt _ => "<datetime>"
  | .str s => s
  | .pylist _ => "[...]"

/-- Split a character list at every occurrence of `c`. -/
def splitOnChar (c : Char) : List Char → List (List Char)
  | [] => [[]]
  | x :: rest =>
    let r := splitOnChar c rest
    if x = c then [] :: r
    else
      match r with
      | h :: t => (x :: h) :: t
      | [] => [[x]]

/-- Nonempty and all decimal digits. -/
def allDigits (l : List Char) : Bool := !l.isEmpty && l.all Char.isDigit

/-- Decimal digits to a number. -/
def digitsToNat (l : List Char) : Nat := l.foldl (fun a c => a * 10 + (c.toNat - 48)) 0

/-- Gregorian leap year. -/
def isLeapYear (y : Nat) : Bool := (y % 4 = 0 && y % 100 ≠ 0) || y % 400 = 0

/-- Days in a month, for `datetime`'s day-of-month validation. -/
def monthLength (y m : Nat) : Nat :=
  if m = 2 then (if isLeapYear y then 29 else 28)
  else if m = 4 ∨ m = 6 ∨ m = 9 ∨ m = 11 then 30
  else 31

/-- Days from 1970-01-01 to the given civil date. -/
def daysFromCivil (y m d : Int) : Int :=
  let y2 := if m ≤ 2 then y - 1 else y
  let era := Int.fdiv y2 400
  let yoe := y2 - era * 400
  let mAdj := if m > 2 then m - 3 else m + 9
  let doy := Int.fdiv (153 * mAdj + 2) 5 + d - 1
  let doe := yoe * 365 + Int.fdiv yoe 4 - Int.fdiv yoe 100 + doy
  era * 146097 + doe - 719468

/-- Model of `datetime.strptime(s, '%Y-%m-%d')` returning midnight of the
parsed date as epoch seconds, or `none` when the parse raises. -/
def parseYMD (s : String) : Option Int :=
  match splitOnChar '-' s.data with
  | [y, m, d] =>
    if allDigits y ∧ allDigits m ∧ allDigits d ∧
        y.length ≤ 4 ∧ m.length ≤ 2 ∧ d.length ≤ 2 then
      let yn := digitsToNat y
      let mn := digitsToNat m
      let dn := digitsToNat d
      if 1 ≤ yn ∧ 1 ≤ mn ∧ mn ≤ 12 ∧ 1 ≤ dn ∧ dn ≤ monthLength yn mn then
        some (86400 * daysFromCivil yn mn dn)
      else none
    else none
  | _ => none

/-- What one WHOIS lookup did: the library is missing, the query threw,
or it returned a record (with its truthiness, `creation_date` field,
`registrar` field and retained key/value items, values already
stringified). -/
inductive WhoisOutcome where
  | unavailable
  | raises (msg : String)
  | ok (truthy : Bool) (creation : PyDate) (registrar : Option String)
      (items : List (String × String))

/-- `DomainAnalyzer.get_whois`.  An exception inside the lookup is caught
here and yields `(None, None, {})`; nothing propagates to the caller.
A falsy non-`datetime` `creation_date` is modelled as absent (Python
keeps the falsy raw value in the field; no downstream decision looks at
the difference). -/
def get_whois (res : WhoisOutcome) : Option Int × Option String × List (String × String) :=
  match res with
  | .unavailable => (none, none, [])
  | .raises _ => (none, none, [])
  | .ok truthy creation registrar items =>
    let whois_data := if truthy then items else []
    let cd1 :=
      match creation with
      | .pylist [] => PyDate.pynone
      | .pylist (x :: _) => x
      | c => c
    let creation_date : Option Int :=
      match cd1 with
      | .dt t => some t
      | c => if pyTruthy c then parseYMD (pyStr c) else none
    (creation_date, registrar, whois_data)

/-- The DNS answers available for one domain, one optional answer list
per record type (`none` models NXDOMAIN / NoAnswer / NoNameservers /
timeout). -/
structure DnsOutcome where
  a : Option (List String) := none
  aaaa : Option (List String) := none
  mx : Option (List String) := none
  ns : Option (List String) := none
deriving Repr, DecidableEq

/-- `DomainAnalyzer.check_dns` (resolver branch): query A, AAAA, MX, NS
in order; any answered type records its strings and marks the domain
registered. -/
def check_dns (o : DnsOutcome) : Bool × List (String × List String) :=
  [("A", o.a), ("AAAA", o.aaaa), ("MX", o.mx), ("NS", o.ns)].foldl
    (fun acc rt =>
      match rt.2 with
      | some answers => (true, acc.2 ++ [(rt.1, answers)])
      | none => acc)
    (false, [])

/-- The WHOIS keys `analyze_variant` retains. -/
def WHOIS_KEEP_KEYS : List String :=
  ["domain_name", "registrar", "creation_date", "expiration_date",
   "name_servers", "org", "country"]

/-- `DomainAnalyzer.analyze_variant`, with the clock and the two network
outcomes passed explicitly.  None of the modelled operations raises, so
the surrounding `except` (which would fill `error`) is never entered:
`get_whois` swallows WHOIS errors itself and `check_dns` swallows DNS
errors itself. -/
def analyze_variant (cfg : AnalysisConfig) (now : Int) (dns : DnsOutcome)
    (whoisRes : WhoisOutcome) (variant : DomainVariant) : DomainVariant :=
  let v1 :=
    if cfg.check_dns then
      let r := check_dns dns
      { variant with is_registered := r.1, dns_records := r.2 }
    else variant
  if v1.is_registered && cfg.check_whois then
    let w := get_whois whoisRes
    let v2 := { v1 with
      creation_date := w.1
      registrar := (w.2).1
      whois_data := ((w.2).2).filter (fun kv => kv.1 ∈ WHOIS_KEEP_KEYS) }
    let v3 :=
      match w.1 with
      | some cd => { v2 with domain_age_days := some (Int.fdiv (now - cd) 86400) }
      | none => v2
    let tl := calculate_trust_level cfg.trust_threshold_days v3.domain_age_days
    { v3 with trust_level := tl.1, risk_score := tl.2 }
  else if v1.is_registered then
    { v1 with trust_level := "unknown", risk_score := 50 }
  else
    { v1 with trust_level := "unregistered", risk_score := 0 }

/-! ## Result aggregator -/

/-- Insert into a descending-by-`risk_score` list, before the first
element of equal or smaller score (so earlier input stays first on
ties). -/
def insertByRiskDesc (v : DomainVariant) : List DomainVariant → List DomainVariant
  | [] => [v]
  | w :: ws =>
    if v.risk_score ≥ w.risk_score then v :: w :: ws
    else w :: insertByRiskDesc v ws

/-- Model of `results.sort(key=lambda x: x.risk_score, reverse=True)`
(main, line 1210, and `OutputFormatter.format_console`).  Python's sort
is stable, and `reverse=True` keeps equal-key elements in input order;
a stable descending sort is extensionally unique, so this insertion
sort is an exact model. -/
def sortByRiskDesc : List DomainVariant → List DomainVariant
  | [] => []
  | v :: vs => insertByRiskDesc v (sortByRiskDesc vs)

/-- Lexicographic code-point comparison of strings (Python `s < t`),
used to state the spec's tie-break order. -/
def strLtCp : List Char → List Char → Bool
  | [], [] => false
  | [], _ :: _ => true
  | _ :: _, [] => false
  | x :: xs, y :: ys =>
    if x.toNat < y.toNat then true
    else if y.toNat < x.toNat then false
    else strLtCp xs ys

/-! ## Concrete instances used when exercising the theorems -/

/-- The sixteen technique tags as the specification enumerates them
(§4.2's list, which names the TLD technique `tld`). -/
def specTechniqueTags : List String :=
  ["homograph", "leetspeak", "typo", "phonetic", "repetition", "omission",
   "insertion", "transposition", "hyphenation", "tld", "prefix", "suffix",
   "vowel_swap", "double_char", "bitsquatting", "subdomain"]

/-- The technique tags the generator actually writes into variants: the
fifteen technique names plus `tld_swap` (the TLD technique's tag). -/
def emittedTechniqueTags : List String :=
  ["homograph", "leetspeak", "typo", "phonetic", "repetition", "omission",
   "insertion", "transposition", "hyphenation", "tld_swap", "prefix", "suffix",
   "vowel_swap", "double_char", "bitsquatting", "subdomain"]

/-- A configuration running only the TLD technique on `example.com`. -/
def cfgTldOnly : AnalysisConfig :=
  { target_domain := "example.com", techniques := ["tld"] }

/-- The TLD-only configuration with the cap set to 2. -/
def cfgCap2 : AnalysisConfig :=
  { target_domain := "example.com", techniques := ["tld"], max_variants := 2 }

/-- A configuration running only bitsquatting on `ab.com`. -/
def cfgBitsq : AnalysisConfig :=
  { target_domain := "ab.com", techniques := ["bitsquatting"] }

/-- A default configuration for `example.com`. -/
def cfgDefault : AnalysisConfig := { target_domain := "example.com" }

/-- A freshly generated variant, as the analyzer receives it. -/
def variantProbe : DomainVariant :=
  { original_domain := "example.com", variant_domain := "examp1e.com",
    technique := "leetspeak" }

/-- A DNS outcome with one A record: the variant resolves. -/
def dnsYes : DnsOutcome := { a := some ["93.184.216.34"] }

/-- Two analyzed variants with equal risk score whose candidates are in
descending lexicographic order. -/
def variantSortA : DomainVariant :=
  { original_domain := "o.com", variant_domain := "a.com",
    technique := "typo", risk_score := 50 }

/-- See `variantSortA`. -/
def variantSortB : DomainVariant :=
  { original_domain := "o.com", variant_domain := "b.com",
    technique := "typo", risk_score := 50 }

/-! ## Lemmas about `_add_variant` and `runAdds` -/

/-- Case analysis of `_add_variant`: either it rejects (state unchanged,
no variant), or the candidate was fresh, different from the original,
below the cap, and gets recorded and returned. -/
theorem add_variant_spec (st : GenState) (n t te d : String) :
    _add_variant st n t te d = (st, none) ∨
    (pyNorm n ++ "." ++ pyNorm t ∉ st.generated_variants ∧
     pyNorm n ++ "." ++ pyNorm t ≠ st.domain_name ++ "." ++ st.tld ∧
     st.generated_variants.length < st.max_variants ∧
     _add_variant st n t te d =
       ({ st with generated_variants :=
            (pyNorm n ++ "." ++ pyNorm t) :: st.generated_variants },
        some { original_domain := st.domain_name ++ "." ++ st.tld,
               variant_domain := pyNorm n ++ "." ++ pyNorm t,
               technique := te, technique_detail := d })) := by
  unfold _add_variant
  dsimp only
  split_ifs with h1 h2 h3 h4
  · exact Or.inl rfl
  · exact Or.inl rfl
  · exact Or.inl rfl
  · exact Or.inl rfl
  · exact Or.inr ⟨h3, h2, by omega, rfl⟩

/-- Once the emitted-set has reached the cap, `_add_variant` returns
`None` and leaves the state unchanged. -/
theorem add_variant_stuck (st : GenState) (n t te d : String)
    (h : st.max_variants ≤ st.generated_variants.length) :
    _add_variant st n t te d = (st, none) := by
  unfold _add_variant
  dsimp only
  split_ifs with h1 h2 h3 <;> rfl

/-- At or past the cap, a whole run of `_add_variant` calls emits
nothing. -/
theorem runAdds_stuck (qs : List Proposal) (st : GenState)
    (h : st.max_variants ≤ st.generated_variants.length) :
    runAdds st qs = (st, []) := by
  induction qs with
  | nil => rfl
  | cons q qs ih =>
    unfold runAdds
    rw [add_variant_stuck st _ _ _ _ h]
    exact ih

/-- The law bundle of `runAdds`: the parsed target and the cap are
untouched; the emitted-set only grows, by exactly one entry per emitted
variant, and never past the cap; every emitted variant is fresh, is not
the original, carries the analyzer-default fields and stems from one of
the proposals; and the emitted candidate strings are pairwise distinct. -/
theorem runAdds_spec (ps : List Proposal) (st : GenState) :
    (runAdds st ps).1.domain_name = st.domain_name ∧
    (runAdds st ps).1.tld = st.tld ∧
    (runAdds st ps).1.max_variants = st.max_variants ∧
    (∀ x ∈ st.generated_variants, x ∈ (runAdds st ps).1.generated_variants) ∧
    (runAdds st ps).1.generated_variants.length
      = st.generated_variants.length + (runAdds st ps).2.length ∧
    (st.generated_variants.length ≤ st.max_variants →
      (runAdds st ps).1.generated_variants.length ≤ st.max_variants) ∧
    (∀ v ∈ (runAdds st ps).2,
      v.variant_domain ∈ (runAdds st ps).1.generated_variants ∧
      v.variant_domain ∉ st.generated_variants ∧
      v.variant_domain ≠ st.domain_name ++ "." ++ st.tld ∧
      v.original_domain = st.domain_name ++ "." ++ st.tld ∧
      v.is_registered = false ∧ v.error = none ∧ v.domain_age_days = none ∧
      v.trust_level = "unknown" ∧ v.risk_score = 0 ∧
      ∃ p ∈ ps, v.technique = p.technique ∧ v.technique_detail = p.detail ∧
        v.variant_domain = pyNorm p.name ++ "." ++ pyNorm p.tld) ∧
    List.Pairwise (fun a b => a.variant_domain ≠ b.variant_domain) (runAdds st ps).2 := by
  induction ps generalizing st with
  | nil =>
    refine ⟨rfl, rfl, rfl, ?_, ?_, ?_, ?_, ?_⟩ <;> simp [runAdds]
  | cons p ps ih =>
    rcases add_variant_spec st p.name p.tld p.technique p.detail with heq | ⟨hfresh, hneq, hlt, heq⟩
    · have hrw : runAdds st (p :: ps) = runAdds st ps := by
        simp only [runAdds, heq]
      rw [hrw]
      obtain ⟨a1, a2, a3, a4, a5, a6, a7, a8⟩ := ih st
      refine ⟨a1, a2, a3, a4, a5, a6, ?_, a8⟩
      intro v hv
      obtain ⟨b1, b2, b3, b4, b5, b6, b7, b8, b9, q, hq, hb⟩ := a7 v hv
      exact ⟨b1, b2, b3, b4, b5, b6, b7, b8, b9, q, List.mem_cons_of_mem _ hq, hb⟩
    · rw [show runAdds st (p :: ps)
          = ((runAdds { st with generated_variants :=
                (pyNorm p.name ++ "." ++ pyNorm p.tld) :: st.generated_variants } ps).1,
             { original_domain := st.domain_name ++ "." ++ st.tld,
               variant_domain := pyNorm p.name ++ "." ++ pyNorm p.tld,
               technique := p.technique, technique_detail := p.detail } ::
             (runAdds { st with generated_variants :=
                (pyNorm p.name ++ "." ++ pyNorm p.tld) :: st.generated_variants } ps).2)
        from by simp only [runAdds, heq]]
      obtain ⟨a1, a2, a3, a4, a5, a6, a7, a8⟩ :=
        ih { st with generated_variants :=
              (pyNorm p.name ++ "." ++ pyNorm p.tld) :: st.generated_variants }
      dsimp only at a1 a2 a3 a4 a5 a6 a7 ⊢
      have hsub : ∀ x ∈ st.generated_variants,
          x ∈ (runAdds { st with generated_variants :=
            (pyNorm p.name ++ "." ++ pyNorm p.tld) :: st.generated_variants } ps).1.generated_variants := by
        intro x hx
        exact a4 x (List.mem_cons_of_mem _ hx)
      refine ⟨a1, a2, a3, hsub, ?_, ?_, ?_, ?_⟩
      · simp only [List.length_cons] at a5 ⊢
        omega
      · intro _
        exact a6 (by simp only [List.length_cons]; omega)
      · intro v hv
        rcases List.mem_cons.1 hv with rfl | hv'
        · refine ⟨a4 _ (List.mem_cons_self _ _), hfresh, hneq, rfl, rfl, rfl, rfl, rfl, rfl,
            p, List.mem_cons_self _ _, rfl, rfl, rfl⟩
        · obtain ⟨b1, b2, b3, b4, b5, b6, b7, b8, b9, q, hq, hb⟩ := a7 v hv'
          have b2' : v.variant_domain ∉ st.generated_variants := fun hx =>
            b2 (List.mem_cons_of_mem _ hx)
          exact ⟨b1, b2', b3, b4, b5, b6, b7, b8, b9, q, List.mem_cons_of_mem _ hq, hb⟩
      · refine List.Pairwise.cons ?_ a8
        intro u hu
        obtain ⟨-, hu2, -⟩ := a7 u hu
        intro hcontra
        exact hu2 (hcontra ▸ List.mem_cons_self _ st.generated_variants)

/-- `runAdds` over a concatenation: run the first block, then the second
from the reached state. -/
theorem runAdds_append (ps qs : List Proposal) (st : GenState) :
    runAdds st (ps ++ qs)
      = ((runAdds (runAdds st ps).1 qs).1,
         (runAdds st ps).2 ++ (runAdds (runAdds st ps).1 qs).2) := by
  induction ps generalizing st with
  | nil => simp [runAdds]
  | cons p ps ih =>
    rcases hres : _add_variant st p.name p.tld p.technique p.detail with ⟨st1, ov⟩
    cases ov with
    | none =>
      have h1 : runAdds st ((p :: ps) ++ qs) = runAdds st1 (ps ++ qs) := by
        simp only [List.cons_append, runAdds, hres]
        rfl
      have h2 : runAdds st (p :: ps) = runAdds st1 ps := by
        simp only [runAdds, hres]
      rw [h1, h2, ih st1]
    | some v =>
      have h1 : runAdds st ((p :: ps) ++ qs)
          = ((runAdds st1 (ps ++ qs)).1, v :: (runAdds st1 (ps ++ qs)).2) := by
        simp only [List.cons_append, runAdds, hres]
        rfl
      have h2 : runAdds st (p :: ps) = ((runAdds st1 ps).1, v :: (runAdds st1 ps).2) := by
        simp only [runAdds, hres]
      rw [h1, h2, ih st1]
      simp

/-! ## Claim theorems -/

/-- Claim C1 (amended): `calculate_trust_level` is a pure function of
`(age_days, threshold)` realizing the bucket table — absent age gives
`(unknown, 50)`; then `critical/95` below 30, `high_risk/85` on
`[30, 90)`, `suspicious/70` on `[90, 180)`, `low_trust/55` on
`[180, 365)`, `moderate/35` on `[365, threshold)`; and `established/15`
requires `age_days ≥ threshold` *and* `age_days ≥ 365` (for thresholds
below 365 the hard-coded 365 boundary still applies, contrary to the
claim's unconditional `age_days ≥ threshold` clause). -/
theorem c1_trust_bucket (threshold age : Int) :
    calculate_trust_level threshold none = ("unknown", 50) ∧
    (age < 30 → calculate_trust_level threshold (some age) = ("critical", 95)) ∧
    (30 ≤ age → age < 90 → calculate_trust_level threshold (some age) = ("high_risk", 85)) ∧
    (90 ≤ age → age < 180 → calculate_trust_level threshold (some age) = ("suspicious", 70)) ∧
    (180 ≤ age → age < 365 → calculate_trust_level threshold (some age) = ("low_trust", 55)) ∧
    (365 ≤ age → age < threshold → calculate_trust_level threshold (some age) = ("moderate", 35)) ∧
    (365 ≤ age → threshold ≤ age → calculate_trust_level threshold (some age) = ("established", 15)) := by
  refine ⟨rfl, ?_, ?_, ?_, ?_, ?_, ?_⟩ <;>
    (intros; simp only [calculate_trust_level]; split_ifs <;> first | rfl | omega)

/-- Claim C1 counterexample: with a configured threshold of 100 days and
an age of 300 days we have `age_days ≥ threshold`, yet the code returns
`(low_trust, 55)`, not `(established, 15)` as the claim's bucket table
demands for `age_days ≥ threshold`. -/
theorem c1_counterexample :
    (100 : Int) ≤ 300 ∧
    calculate_trust_level 100 (some 300) = ("low_trust", 55) ∧
    calculate_trust_level 100 (some 300) ≠ ("established", 15) := by
  decide

/-- Exercises `c1_trust_bucket` at threshold 730, age 400 (the moderate
bucket). -/
theorem c1_witness :
    (365 : Int) ≤ 400 ∧ (400 : Int) < 730 ∧
    calculate_trust_level 730 (some 400) = ("moderate", 35) :=
  ⟨by decide, by decide,
    ((c1_trust_bucket 730 400).2.2.2.2.2.1) (by decide) (by decide)⟩

/-- Claim C2: within one `generate_all` run the emitted `variant_domain`
strings are pairwise distinct, and none equals the parsed original
`name.tld`. -/
theorem c2_unique_nonidentity (cfg : AnalysisConfig) :
    List.Pairwise (fun a b => a ≠ b)
      ((generate_all cfg).map (fun v => v.variant_domain)) ∧
    ∀ v ∈ generate_all cfg,
      v.variant_domain ≠
        (_parse_domain cfg.target_domain).1 ++ "." ++ (_parse_domain cfg.target_domain).2 := by
  obtain ⟨-, -, -, -, -, -, a7, a8⟩ :=
    runAdds_spec
      (generatorProposals (_parse_domain cfg.target_domain).1
        (_parse_domain cfg.target_domain).2 cfg.techniques)
      (initState cfg)
  constructor
  · rw [List.pairwise_map]
    exact a8
  · intro v hv
    obtain ⟨-, -, b3, -⟩ := a7 v hv
    exact b3

/-- Exercises `c2_unique_nonidentity` on the TLD-only run for
`example.com`, at its first emitted variant. -/
theorem c2_witness :
    ((generate_all cfgTldOnly).headD default ∈ generate_all cfgTldOnly) ∧
    ((generate_all cfgTldOnly).headD default).variant_domain ≠
      (_parse_domain cfgTldOnly.target_domain).1 ++ "." ++
        (_parse_domain cfgTldOnly.target_domain).2 :=
  ⟨by decide, (c2_unique_nonidentity cfgTldOnly).2 _ (by decide)⟩

/-- Claim C3: the generator's output has at most `max_variants` entries,
and the cap is a hard stop — if some prefix of the proposal stream has
already produced `max_variants` variants, the whole remaining stream
(in particular every later technique) emits nothing, so the output is
exactly the prefix's output. -/
theorem c3_cap (cfg : AnalysisConfig) (ps qs : List Proposal)
    (hsplit : generatorProposals (_parse_domain cfg.target_domain).1
        (_parse_domain cfg.target_domain).2 cfg.techniques = ps ++ qs)
    (hfull : (runAdds (initState cfg) ps).2.length = cfg.max_variants) :
    (generate_all cfg).length ≤ cfg.max_variants ∧
    (runAdds ((runAdds (initState cfg) ps).1) qs).2 = [] ∧
    generate_all cfg = (runAdds (initState cfg) ps).2 := by
  have hstuck : (runAdds (initState cfg) ps).1.max_variants ≤
      (runAdds (initState cfg) ps).1.generated_variants.length := by
    obtain ⟨-, -, a3, -, a5, -, -, -⟩ := runAdds_spec ps (initState cfg)
    have h0 : (initState cfg).generated_variants.length = 0 := rfl
    have hmax : (initState cfg).max_variants = cfg.max_variants := rfl
    omega
  have hqs := runAdds_stuck qs (runAdds (initState cfg) ps).1 hstuck
  refine ⟨?_, ?_, ?_⟩
  · obtain ⟨-, -, -, -, a5, a6, -, -⟩ :=
      runAdds_spec
        (generatorProposals (_parse_domain cfg.target_domain).1
          (_parse_domain cfg.target_domain).2 cfg.techniques)
        (initState cfg)
    show (runAdds (initState cfg)
      (generatorProposals (_parse_domain cfg.target_domain).1
        (_parse_domain cfg.target_domain).2 cfg.techniques)).2.length ≤ cfg.max_variants
    have h0 : (initState cfg).generated_variants.length = 0 := rfl
    have hmax : (initState cfg).max_variants = cfg.max_variants := rfl
    have h6 := a6 (by omega)
    omega
  · rw [hqs]
  · show (runAdds (initState cfg)
      (generatorProposals (_parse_domain cfg.target_domain).1
        (_parse_domain cfg.target_domain).2 cfg.techniques)).2
      = (runAdds (initState cfg) ps).2
    rw [hsplit, runAdds_append, hqs]
    simp

/-- Exercises `c3_cap`: `example.com` with only the TLD technique and a
cap of 2; the first two proposals already fill the cap. -/
theorem c3_witness :
    (generatorProposals (_parse_domain cfgCap2.target_domain).1
        (_parse_domain cfgCap2.target_domain).2 cfgCap2.techniques
      = (generatorProposals (_parse_domain cfgCap2.target_domain).1
          (_parse_domain cfgCap2.target_domain).2 cfgCap2.techniques).take 2
        ++ (generatorProposals (_parse_domain cfgCap2.target_domain).1
          (_parse_domain cfgCap2.target_domain).2 cfgCap2.techniques).drop 2) ∧
    ((runAdds (initState cfgCap2)
        ((generatorProposals (_parse_domain cfgCap2.target_domain).1
          (_parse_domain cfgCap2.target_domain).2 cfgCap2.techniques).take 2)).2.length
      = cfgCap2.max_variants) ∧
    ((generate_all cfgCap2).length ≤ cfgCap2.max_variants ∧
     (runAdds ((runAdds (initState cfgCap2)
         ((generatorProposals (_parse_domain cfgCap2.target_domain).1
           (_parse_domain cfgCap2.target_domain).2 cfgCap2.techniques).take 2)).1)
        ((generatorProposals (_parse_domain cfgCap2.target_domain).1
          (_parse_domain cfgCap2.target_domain).2 cfgCap2.techniques).drop 2)).2 = [] ∧
     generate_all cfgCap2
       = (runAdds (initState cfgCap2)
           ((generatorProposals (_parse_domain cfgCap2.target_domain).1
             (_parse_domain cfgCap2.target_domain).2 cfgCap2.techniques).take 2)).2) :=
  ⟨by decide, by decide, c3_cap cfgCap2 _ _ (by decide) (by decide)⟩

/-- `lastDotSplit` finds nothing exactly on dot-free strings. -/
theorem lastDotSplit_none_iff (l : List Char) :
    lastDotSplit l = none ↔ '.' ∉ l := by
  induction l with
  | nil => simp [lastDotSplit]
  | cons c rest ih =>
    simp only [lastDotSplit]
    cases hr : lastDotSplit rest with
    | some p =>
      have : '.' ∈ rest := by
        by_contra hn
        rw [ih.2 hn] at hr
        cases hr
      simp [List.mem_cons, this]
    | none =>
      have hrest : '.' ∉ rest := ih.1 hr
      by_cases hc : c = '.'
      · subst hc
        simp [List.mem_cons]
      · simp [hc, List.mem_cons, hrest, Ne.symm hc]

/-- A successful `lastDotSplit` decomposes the string at its last dot. -/
theorem lastDotSplit_some_spec (l : List Char) :
    ∀ n t, lastDotSplit l = some (n, t) → l = n ++ '.' :: t ∧ '.' ∉ t := by
  induction l with
  | nil => intro n t h; simp [lastDotSplit] at h
  | cons c rest ih =>
    intro n t h
    simp only [lastDotSplit] at h
    cases hr : lastDotSplit rest with
    | some p =>
      rw [hr] at h
      obtain ⟨a, b⟩ := p
      simp only [Option.some.injEq, Prod.mk.injEq] at h
      obtain ⟨hn, ht⟩ := h
      obtain ⟨h1, h2⟩ := ih a b hr
      subst hn ht
      exact ⟨by rw [h1]; rfl, h2⟩
    | none =>
      rw [hr] at h
      by_cases hc : c = '.'
      · rw [if_pos hc] at h
        simp only [Option.some.injEq, Prod.mk.injEq] at h
        obtain ⟨hn, ht⟩ := h
        subst hn ht
        subst hc
        exact ⟨rfl, (lastDotSplit_none_iff rest).1 hr⟩
      · rw [if_neg hc] at h
        cases h

/-- Claim C4 (amended): the parser never fails — there is no
`InvalidTarget` error anywhere in the code.  For every input it returns
a pair: the stripped string with `com` when no dot is present (also on
the empty stripped string), else the split at the last dot. -/
theorem c4_parser_total (s : String) :
    ('.' ∉ strippedTarget s →
      _parse_domain s = (String.mk (strippedTarget s), "com")) ∧
    ('.' ∈ strippedTarget s →
      ∃ n t, _parse_domain s = (String.mk n, String.mk t) ∧
        strippedTarget s = n ++ '.' :: t ∧ '.' ∉ t) := by
  constructor
  · intro h
    unfold _parse_domain
    dsimp only
    rw [(lastDotSplit_none_iff (strippedTarget s)).2 h]
  · intro h
    unfold _parse_domain
    dsimp only
    cases hr : lastDotSplit (strippedTarget s) with
    | none => exact absurd h ((lastDotSplit_none_iff _).1 hr)
    | some p =>
      obtain ⟨h1, h2⟩ := lastDotSplit_some_spec _ p.1 p.2 (by rw [hr])
      exact ⟨p.1, p.2, rfl, h1, h2⟩

/-- Claim C4 counterexample: on input `""` (empty also after stripping)
the parser does not fail — it returns `("", "com")`, while the claim
demands an `InvalidTarget` failure exactly there. -/
theorem c4_counterexample : _parse_domain "" = ("", "com") := by decide

/-- Exercises `c4_parser_total` on a URL input with scheme, `www.` label
and path. -/
theorem c4_witness :
    ('.' ∈ strippedTarget "http://www.example.com/path") ∧
    (∃ n t, _parse_domain "http://www.example.com/path" = (String.mk n, String.mk t) ∧
      strippedTarget "http://www.example.com/path" = n ++ '.' :: t ∧ '.' ∉ t) :=
  ⟨by decide, (c4_parser_total "http://www.example.com/path").2 (by decide)⟩

/-- Membership through `insertByRiskDesc`. -/
theorem mem_insertByRiskDesc (v x : DomainVariant) (l : List DomainVariant) :
    x ∈ insertByRiskDesc v l ↔ x = v ∨ x ∈ l := by
  induction l with
  | nil => simp [insertByRiskDesc]
  | cons w ws ih =>
    simp only [insertByRiskDesc]
    split_ifs with h
    · simp [List.mem_cons]
    · simp only [List.mem_cons, ih]
      tauto

/-- `insertByRiskDesc` preserves the descending-by-score order. -/
theorem pairwise_insertByRiskDesc (v : DomainVariant) (l : List DomainVariant)
    (hl : List.Pairwise (fun a b => b.risk_score ≤ a.risk_score) l) :
    List.Pairwise (fun a b => b.risk_score ≤ a.risk_score) (insertByRiskDesc v l) := by
  induction l with
  | nil => simp [insertByRiskDesc]
  | cons w ws ih =>
    obtain ⟨hw, hws⟩ := List.pairwise_cons.1 hl
    simp only [insertByRiskDesc]
    split_ifs with h
    · refine List.Pairwise.cons ?_ hl
      intro x hx
      rcases List.mem_cons.1 hx with rfl | hx'
      · omega
      · have := hw x hx'
        omega
    · refine List.Pairwise.cons ?_ (ih hws)
      intro x hx
      rcases (mem_insertByRiskDesc v x ws).1 hx with rfl | hx'
      · omega
      · exact hw x hx'

/-- Filtering a score class through `insertByRiskDesc`: the inserted
element lands in front of its own score class (every element it jumps
over has a strictly larger score). -/
theorem filter_insertByRiskDesc (m : Int) (v : DomainVariant) (l : List DomainVariant) :
    (insertByRiskDesc v l).filter (fun x => x.risk_score == m)
      = if v.risk_score = m
        then v :: l.filter (fun x => x.risk_score == m)
        else l.filter (fun x => x.risk_score == m) := by
  induction l with
  | nil =>
    by_cases hv : v.risk_score = m
    · rw [if_pos hv]
      simp [insertByRiskDesc, List.filter_cons, hv]
    · rw [if_neg hv]
      simp [insertByRiskDesc, List.filter_cons, hv]
  | cons w ws ih =>
    by_cases hv : v.risk_score = m
    · rw [if_pos hv]
      rw [if_pos hv] at ih
      simp only [insertByRiskDesc]
      split_ifs with h
      · rw [List.filter_cons, if_pos (by simp [hv])]
      · have hw2 : ¬ w.risk_score = m := by omega
        rw [List.filter_cons, if_neg (by simp [hw2]), ih,
          List.filter_cons, if_neg (by simp [hw2])]
    · rw [if_neg hv]
      rw [if_neg hv] at ih
      simp only [insertByRiskDesc]
      split_ifs with h
      · rw [List.filter_cons, if_neg (by simp [hv])]
      · rw [List.filter_cons, ih, List.filter_cons]

/-- Claim C6 (amended): the final output is sorted by descending
`risk_score`, and within one score class the elements keep their input
order (Python's sort is stable; equal scores are *not* re-ordered by
candidate). -/
theorem c6_sort_stable (l : List DomainVariant) :
    List.Pairwise (fun a b => b.risk_score ≤ a.risk_score) (sortByRiskDesc l) ∧
    ∀ m : Int, (sortByRiskDesc l).filter (fun x => x.risk_score == m)
      = l.filter (fun x => x.risk_score == m) := by
  induction l with
  | nil => exact ⟨List.Pairwise.nil, fun m => rfl⟩
  | cons v vs ih =>
    obtain ⟨ihs, ihf⟩ := ih
    refine ⟨pairwise_insertByRiskDesc v _ ihs, ?_⟩
    intro m
    show (insertByRiskDesc v (sortByRiskDesc vs)).filter (fun x => x.risk_score == m)
      = (v :: vs).filter (fun x => x.risk_score == m)
    rw [filter_insertByRiskDesc, List.filter_cons]
    by_cases hv : v.risk_score = m
    · rw [if_pos hv, if_pos (by simp [hv]), ihf]
    · rw [if_neg hv, if_neg (by simp [hv]), ihf]

/-- Claim C6 counterexample: two variants with equal `risk_score` whose
candidates arrive in descending lexicographic order stay in that order —
the sort does not break the tie by candidate ascending. -/
theorem c6_counterexample :
    variantSortB.risk_score = variantSortA.risk_score ∧
    strLtCp variantSortA.variant_domain.data variantSortB.variant_domain.data = true ∧
    (sortByRiskDesc [variantSortB, variantSortA]).map (fun v => v.variant_domain)
      = ["b.com", "a.com"] := by
  decide

/-- Claim C7 (amended): when DNS concluded registered and the WHOIS
lookup raises, the variant comes back with `registered = true`,
`trust_level = "unknown"`, `risk_score = 50` — but the `error` field is
left as it was (absent for pipeline variants): `get_whois` swallows the
exception and records nothing. -/
theorem c7_whois_down (cfg : AnalysisConfig) (now : Int) (dns : DnsOutcome)
    (msg : String) (v : DomainVariant)
    (h1 : cfg.check_dns = true) (h2 : cfg.check_whois = true)
    (hreg : (check_dns dns).1 = true) (hage : v.domain_age_days = none) :
    (analyze_variant cfg now dns (.raises msg) v).is_registered = true ∧
    (analyze_variant cfg now dns (.raises msg) v).trust_level = "unknown" ∧
    (analyze_variant cfg now dns (.raises msg) v).risk_score = 50 ∧
    (analyze_variant cfg now dns (.raises msg) v).error = v.error := by
  simp [analyze_variant, get_whois, calculate_trust_level, h1, h2, hreg, hage]

/-- Claim C7 counterexample: a concrete resolved variant whose WHOIS
lookup throws ends with `error = none` — not the non-empty `error` the
claim requires. -/
theorem c7_counterexample :
    (analyze_variant cfgDefault 1000000 dnsYes (.raises "whois timed out") variantProbe).is_registered
      = true ∧
    (analyze_variant cfgDefault 1000000 dnsYes (.raises "whois timed out") variantProbe).trust_level
      = "unknown" ∧
    (analyze_variant cfgDefault 1000000 dnsYes (.raises "whois timed out") variantProbe).risk_score
      = 50 ∧
    (analyze_variant cfgDefault 1000000 dnsYes (.raises "whois timed out") variantProbe).error
      = none := by
  decide

/-- Exercises `c7_whois_down` at a concrete configuration and outcome. -/
theorem c7_witness :
    cfgDefault.check_dns = true ∧ cfgDefault.check_whois = true ∧
    (check_dns dnsYes).1 = true ∧ variantProbe.domain_age_days = none ∧
    ((analyze_variant cfgDefault 1000000 dnsYes (.raises "boom") variantProbe).is_registered = true ∧
     (analyze_variant cfgDefault 1000000 dnsYes (.raises "boom") variantProbe).trust_level = "unknown" ∧
     (analyze_variant cfgDefault 1000000 dnsYes (.raises "boom") variantProbe).risk_score = 50 ∧
     (analyze_variant cfgDefault 1000000 dnsYes (.raises "boom") variantProbe).error = variantProbe.error) :=
  ⟨rfl, rfl, by decide, rfl,
    c7_whois_down cfgDefault 1000000 dnsYes "boom" variantProbe rfl rfl (by decide) rfl⟩

/-- Claim C9 (amended): when DNS concluded registered and WHOIS yielded a
`datetime` creation date, `domain_age_days` is exactly
`floor((now − creation_date) / 1 day)` — which is negative (not absent,
not clamped) when the creation date lies in the future, contradicting
the claim's non-negativity half. -/
theorem c9_age_floor (cfg : AnalysisConfig) (now tcreate : Int) (dns : DnsOutcome)
    (truthy : Bool) (reg : Option String) (items : List (String × String))
    (v : DomainVariant)
    (h1 : cfg.check_dns = true) (h2 : cfg.check_whois = true)
    (hreg : (check_dns dns).1 = true) :
    (analyze_variant cfg now dns (.ok truthy (.dt tcreate) reg items) v).domain_age_days
      = some (Int.fdiv (now - tcreate) 86400) ∧
    (analyze_variant cfg now dns (.ok truthy (.dt tcreate) reg items) v).creation_date
      = some tcreate := by
  simp [analyze_variant, get_whois, h1, h2, hreg]

/-- Claim C9 counterexample: a creation date one hour in the future
yields `domain_age_days = -1`, a negative value, where the claim demands
a non-negative integer. -/
theorem c9_counterexample :
    (analyze_variant cfgDefault 0 dnsYes (.ok true (.dt 3600) none []) variantProbe).domain_age_days
      = some (-1) ∧
    ¬ (0 : Int) ≤ -1 := by
  decide

/-- Exercises `c9_age_floor` with `now` 100 days and creation 55 days
after the epoch (age 45 days). -/
theorem c9_witness :
    cfgDefault.check_dns = true ∧ cfgDefault.check_whois = true ∧
    (check_dns dnsYes).1 = true ∧
    ((analyze_variant cfgDefault (86400 * 100) dnsYes
        (.ok true (.dt (86400 * 55)) (some "R") []) variantProbe).domain_age_days
      = some (Int.fdiv (86400 * 100 - 86400 * 55) 86400) ∧
     (analyze_variant cfgDefault (86400 * 100) dnsYes
        (.ok true (.dt (86400 * 55)) (some "R") []) variantProbe).creation_date
      = some (86400 * 55)) :=
  ⟨rfl, rfl, by decide,
    c9_age_floor cfgDefault (86400 * 100) (86400 * 55) dnsYes true (some "R") [] variantProbe
      rfl rfl (by decide)⟩

/-- Claim C10: with `check_dns = false` the analyzer leaves a pipeline
variant unregistered (`registered = false`, `trust_level =
"unregistered"`, `risk_score = 0`) and performs no WHOIS lookup even
when `check_whois = true` — the result does not depend on the WHOIS
outcome.  Pipeline variants do satisfy the premise: the generator always
emits `is_registered = false`. -/
theorem c10_no_dns :
    (∀ cfg : AnalysisConfig, ∀ v ∈ generate_all cfg, v.is_registered = false) ∧
    (∀ (cfg : AnalysisConfig) (now : Int) (dns : DnsOutcome) (w w2 : WhoisOutcome)
       (v : DomainVariant), cfg.check_dns = false → v.is_registered = false →
      (analyze_variant cfg now dns w v).is_registered = false ∧
      (analyze_variant cfg now dns w v).trust_level = "unregistered" ∧
      (analyze_variant cfg now dns w v).risk_score = 0 ∧
      analyze_variant cfg now dns w v = analyze_variant cfg now dns w2 v) := by
  constructor
  · intro cfg v hv
    obtain ⟨-, -, -, -, -, -, a7, -⟩ :=
      runAdds_spec
        (generatorProposals (_parse_domain cfg.target_domain).1
          (_parse_domain cfg.target_domain).2 cfg.techniques)
        (initState cfg)
    obtain ⟨-, -, -, -, b5, -⟩ := a7 v hv
    exact b5
  · intro cfg now dns w w2 v h1 h2
    refine ⟨?_, ?_, ?_, ?_⟩ <;> simp [analyze_variant, h1, h2]

/-- Exercises `c10_no_dns` on the first TLD variant of `example.com` and
on a concrete no-DNS analysis whose two WHOIS oracles differ. -/
theorem c10_witness :
    ((generate_all cfgTldOnly).headD default ∈ generate_all cfgTldOnly) ∧
    ((generate_all cfgTldOnly).headD default).is_registered = false ∧
    ({ target_domain := "example.com", check_dns := false } : AnalysisConfig).check_dns = false ∧
    variantProbe.is_registered = false ∧
    ((analyze_variant { target_domain := "example.com", check_dns := false } 0 dnsYes
        (.raises "x") variantProbe).is_registered = false ∧
     (analyze_variant { target_domain := "example.com", check_dns := false } 0 dnsYes
        (.raises "x") variantProbe).trust_level = "unregistered" ∧
     (analyze_variant { target_domain := "example.com", check_dns := false } 0 dnsYes
        (.raises "x") variantProbe).risk_score = 0 ∧
     analyze_variant { target_domain := "example.com", check_dns := false } 0 dnsYes
        (.raises "x") variantProbe
       = analyze_variant { target_domain := "example.com", check_dns := false } 0 dnsYes
          (.ok true (.dt 0) none []) variantProbe) :=
  ⟨by decide, c10_no_dns.1 cfgTldOnly _ (by decide), rfl, rfl,
    c10_no_dns.2 { target_domain := "example.com", check_dns := false } 0 dnsYes
      (.raises "x") (.ok true (.dt 0) none []) variantProbe rfl rfl⟩

/-- Every homograph proposal carries the `homograph` tag. -/
theorem homographProposals_technique (name : List Char) (tld : String) (p : Proposal)
    (hp : p ∈ homographProposals name tld) : p.technique = "homograph" := by
  simp only [homographProposals, List.mem_flatMap] at hp
  obtain ⟨ic, -, hp⟩ := hp
  cases htl : tableLookup HOMOGRAPH_MAPPINGS ic.2 with
  | none => rw [htl] at hp; simp at hp
  | some reps =>
    rw [htl] at hp
    simp only [List.mem_map] at hp
    obtain ⟨r, -, rfl⟩ := hp
    rfl

/-- Every leetspeak proposal carries the `leetspeak` tag. -/
theorem leetspeakProposals_technique (name : List Char) (tld : String) (p : Proposal)
    (hp : p ∈ leetspeakProposals name tld) : p.technique = "leetspeak" := by
  simp only [leetspeakProposals, List.mem_flatMap] at hp
  obtain ⟨ic, -, hp⟩ := hp
  cases htl : tableLookup LEETSPEAK_MAPPINGS ic.2 with
  | none => rw [htl] at hp; simp at hp
  | some reps =>
    rw [htl] at hp
    simp only [List.mem_map] at hp
    obtain ⟨r, -, rfl⟩ := hp
    rfl

/-- Every typo proposal carries the `typo` tag. -/
theorem typoProposals_technique (name : List Char) (tld : String) (p : Proposal)
    (hp : p ∈ typoProposals name tld) : p.technique = "typo" := by
  simp only [typoProposals, List.mem_flatMap] at hp
  obtain ⟨ic, -, hp⟩ := hp
  cases htl : tableLookup KEYBOARD_TYPOS ic.2 with
  | none => rw [htl] at hp; simp at hp
  | some reps =>
    rw [htl] at hp
    simp only [List.mem_map] at hp
    obtain ⟨r, -, rfl⟩ := hp
    rfl

/-- Every phonetic proposal carries the `phonetic` tag. -/
theorem phoneticProposals_technique (name : List Char) (tld : String) (p : Proposal)
    (hp : p ∈ phoneticProposals name tld) : p.technique = "phonetic" := by
  simp only [phoneticProposals, List.mem_flatMap] at hp
  obtain ⟨pr, -, hp⟩ := hp
  split at hp
  · simp only [List.mem_map] at hp
    obtain ⟨r, -, rfl⟩ := hp
    rfl
  · simp at hp

/-- Every repetition proposal carries the `repetition` tag. -/
theorem repetitionProposals_technique (name : List Char) (tld : String) (p : Proposal)
    (hp : p ∈ repetitionProposals name tld) : p.technique = "repetition" := by
  simp only [repetitionProposals, List.mem_flatMap] at hp
  obtain ⟨ic, -, hp⟩ := hp
  split at hp
  · simp only [List.mem_singleton] at hp
    subst hp
    rfl
  · simp at hp

/-- Every omission proposal carries the `omission` tag. -/
theorem omissionProposals_technique (name : List Char) (tld : String) (p : Proposal)
    (hp : p ∈ omissionProposals name tld) : p.technique = "omission" := by
  simp only [omissionProposals, List.mem_flatMap] at hp
  obtain ⟨i, -, hp⟩ := hp
  simp only [List.mem_ite_nil_left, List.mem_singleton] at hp
  obtain ⟨-, rfl⟩ := hp
  rfl

/-- Every insertion proposal carries the `insertion` tag. -/
theorem insertionProposals_technique (name : List Char) (tld : String) (p : Proposal)
    (hp : p ∈ insertionProposals name tld) : p.technique = "insertion" := by
  simp only [insertionProposals, List.mem_flatMap, List.mem_map] at hp
  obtain ⟨i, -, c, -, rfl⟩ := hp
  rfl

/-- Every transposition proposal carries the `transposition` tag. -/
theorem transpositionProposals_technique (name : List Char) (tld : String) (p : Proposal)
    (hp : p ∈ transpositionProposals name tld) : p.technique = "transposition" := by
  simp only [transpositionProposals, List.mem_flatMap] at hp
  obtain ⟨i, -, hp⟩ := hp
  rcases hd : name.drop i with - | ⟨a, - | ⟨b, rest⟩⟩ <;> rw [hd] at hp
  · simp at hp
  · simp at hp
  · simp only [List.mem_singleton] at hp
    subst hp
    rfl

/-- Every hyphenation proposal carries the `hyphenation` tag. -/
theorem hyphenationProposals_technique (name : List Char) (tld : String) (p : Proposal)
    (hp : p ∈ hyphenationProposals name tld) : p.technique = "hyphenation" := by
  simp only [hyphenationProposals, List.mem_append] at hp
  rcases hp with hp | hp
  · simp only [List.mem_map] at hp
    obtain ⟨i, -, rfl⟩ := hp
    rfl
  · split at hp
    · simp only [List.mem_singleton] at hp
      subst hp
      rfl
    · simp at hp

/-- Every alternative-TLD proposal carries the `tld_swap` tag. -/
theorem tldProposals_technique (name : List Char) (tld : String) (p : Proposal)
    (hp : p ∈ tldProposals name tld) : p.technique = "tld_swap" := by
  simp only [tldProposals, List.mem_flatMap] at hp
  obtain ⟨t, -, hp⟩ := hp
  split at hp
  · simp only [List.mem_singleton] at hp
    subst hp
    rfl
  · simp at hp

/-- Every prefix proposal carries the `prefix` tag. -/
theorem prefixProposals_technique (name : List Char) (tld : String) (p : Proposal)
    (hp : p ∈ prefixProposals name tld) : p.technique = "prefix" := by
  simp only [prefixProposals, List.mem_map] at hp
  obtain ⟨pre, -, rfl⟩ := hp
  rfl

/-- Every suffix proposal carries the `suffix` tag. -/
theorem suffixProposals_technique (name : List Char) (tld : String) (p : Proposal)
    (hp : p ∈ suffixProposals name tld) : p.technique = "suffix" := by
  simp only [suffixProposals, List.mem_map] at hp
  obtain ⟨suf, -, rfl⟩ := hp
  rfl

/-- Every vowel-swap proposal carries the `vowel_swap` tag. -/
theorem vowelSwapProposals_technique (name : List Char) (tld : String) (p : Proposal)
    (hp : p ∈ vowelSwapProposals name tld) : p.technique = "vowel_swap" := by
  simp only [vowelSwapProposals, List.mem_flatMap] at hp
  obtain ⟨ic, -, hp⟩ := hp
  split at hp
  · simp only [List.mem_map] at hp
    obtain ⟨vw, -, rfl⟩ := hp
    rfl
  · simp at hp

/-- Every double-char proposal carries the `double_char` tag. -/
theorem doubleCharProposals_technique (name : List Char) (tld : String) (p : Proposal)
    (hp : p ∈ doubleCharProposals name tld) : p.technique = "double_char" := by
  simp only [doubleCharProposals, List.mem_flatMap] at hp
  obtain ⟨i, -, hp⟩ := hp
  rcases hd : name.drop i with - | ⟨a, - | ⟨b, rest⟩⟩ <;> rw [hd] at hp
  · simp at hp
  · simp at hp
  · simp at hp
    obtain ⟨-, rfl⟩ := hp
    rfl

/-- Every bitsquatting proposal carries the `bitsquatting` tag. -/
theorem bitsquattingProposals_technique (name : List Char) (tld : String) (p : Proposal)
    (hp : p ∈ bitsquattingProposals name tld) : p.technique = "bitsquatting" := by
  simp only [bitsquattingProposals, List.mem_flatMap] at hp
  obtain ⟨ic, -, bit, -, hp⟩ := hp
  split at hp
  · split at hp
    · simp only [List.mem_singleton] at hp
      subst hp
      rfl
    · simp at hp
  · simp at hp

/-- Every subdomain proposal carries the `subdomain` tag. -/
theorem subdomainProposals_technique (name : List Char) (tld : String) (p : Proposal)
    (hp : p ∈ subdomainProposals name tld) : p.technique = "subdomain" := by
  simp only [subdomainProposals, List.mem_map] at hp
  obtain ⟨sub, -, rfl⟩ := hp
  rfl

/-- Whatever technique name is dispatched, a produced proposal's tag is
one of the sixteen emitted tags (with `tld_swap` for the TLD
technique). -/
theorem techniqueProposals_tag (dn tld t : String) (p : Proposal)
    (hp : p ∈ techniqueProposals dn tld t) : p.technique ∈ emittedTechniqueTags := by
  unfold techniqueProposals at hp
  by_cases h1 : t = "homograph"
  · rw [if_pos h1] at hp
    rw [homographProposals_technique _ _ _ hp]
    decide
  · rw [if_neg h1] at hp
    by_cases h2 : t = "leetspeak"
    · rw [if_pos h2] at hp
      rw [leetspeakProposals_technique _ _ _ hp]
      decide
    · rw [if_neg h2] at hp
      by_cases h3 : t = "typo"
      · rw [if_pos h3] at hp
        rw [typoProposals_technique _ _ _ hp]
        decide
      · rw [if_neg h3] at hp
        by_cases h4 : t = "phonetic"
        · rw [if_pos h4] at hp
          rw [phoneticProposals_technique _ _ _ hp]
          decide
        · rw [if_neg h4] at hp
          by_cases h5 : t = "repetition"
          · rw [if_pos h5] at hp
            rw [repetitionProposals_technique _ _ _ hp]
            decide
          · rw [if_neg h5] at hp
            by_cases h6 : t = "omission"
            · rw [if_pos h6] at hp
              rw [omissionProposals_technique _ _ _ hp]
              decide
            · rw [if_neg h6] at hp
              by_cases h7 : t = "insertion"
              · rw [if_pos h7] at hp
                rw [insertionProposals_technique _ _ _ hp]
                decide
              · rw [if_neg h7] at hp
                by_cases h8 : t = "transposition"
                · rw [if_pos h8] at hp
                  rw [transpositionProposals_technique _ _ _ hp]
                  decide
                · rw [if_neg h8] at hp
                  by_cases h9 : t = "hyphenation"
                  · rw [if_pos h9] at hp
                    rw [hyphenationProposals_technique _ _ _ hp]
                    decide
                  · rw [if_neg h9] at hp
                    by_cases h10 : t = "tld"
                    · rw [if_pos h10] at hp
                      rw [tldProposals_technique _ _ _ hp]
                      decide
                    · rw [if_neg h10] at hp
                      by_cases h11 : t = "prefix"
                      · rw [if_pos h11] at hp
                        rw [prefixProposals_technique _ _ _ hp]
                        decide
                      · rw [if_neg h11] at hp
                        by_cases h12 : t = "suffix"
                        · rw [if_pos h12] at hp
                          rw [suffixProposals_technique _ _ _ hp]
                          decide
                        · rw [if_neg h12] at hp
                          by_cases h13 : t = "vowel_swap"
                          · rw [if_pos h13] at hp
                            rw [vowelSwapProposals_technique _ _ _ hp]
                            decide
                          · rw [if_neg h13] at hp
                            by_cases h14 : t = "double_char"
                            · rw [if_pos h14] at hp
                              rw [doubleCharProposals_technique _ _ _ hp]
                              decide
                            · rw [if_neg h14] at hp
                              by_cases h15 : t = "bitsquatting"
                              · rw [if_pos h15] at hp
                                rw [bitsquattingProposals_technique _ _ _ hp]
                                decide
                              · rw [if_neg h15] at hp
                                by_cases h16 : t = "subdomain"
                                · rw [if_pos h16] at hp
                                  rw [subdomainProposals_technique _ _ _ hp]
                                  decide
                                · rw [if_neg h16] at hp
                                  simp at hp

/-- A dispatched proposal tagged `bitsquatting` comes from the
bitsquatting generator. -/
theorem techniqueProposals_bitsquatting (dn tld t : String) (p : Proposal)
    (hp : p ∈ techniqueProposals dn tld t) (htag : p.technique = "bitsquatting") :
    p ∈ bitsquattingProposals dn.data tld := by
  unfold techniqueProposals at hp
  by_cases h1 : t = "homograph"
  · rw [if_pos h1] at hp
    exact absurd ((homographProposals_technique _ _ _ hp).symm.trans htag) (by decide)
  · rw [if_neg h1] at hp
    by_cases h2 : t = "leetspeak"
    · rw [if_pos h2] at hp
      exact absurd ((leetspeakProposals_technique _ _ _ hp).symm.trans htag) (by decide)
    · rw [if_neg h2] at hp
      by_cases h3 : t = "typo"
      · rw [if_pos h3] at hp
        exact absurd ((typoProposals_technique _ _ _ hp).symm.trans htag) (by decide)
      · rw [if_neg h3] at hp
        by_cases h4 : t = "phonetic"
        · rw [if_pos h4] at hp
          exact absurd ((phoneticProposals_technique _ _ _ hp).symm.trans htag) (by decide)
        · rw [if_neg h4] at hp
          by_cases h5 : t = "repetition"
          · rw [if_pos h5] at hp
            exact absurd ((repetitionProposals_technique _ _ _ hp).symm.trans htag) (by decide)
          · rw [if_neg h5] at hp
            by_cases h6 : t = "omission"
            · rw [if_pos h6] at hp
              exact absurd ((omissionProposals_technique _ _ _ hp).symm.trans htag) (by decide)
            · rw [if_neg h6] at hp
              by_cases h7 : t = "insertion"
              · rw [if_pos h7] at hp
                exact absurd ((insertionProposals_technique _ _ _ hp).symm.trans htag) (by decide)
              · rw [if_neg h7] at hp
                by_cases h8 : t = "transposition"
                · rw [if_pos h8] at hp
                  exact absurd ((transpositionProposals_technique _ _ _ hp).symm.trans htag) (by decide)
                · rw [if_neg h8] at hp
                  by_cases h9 : t = "hyphenation"
                  · rw [if_pos h9] at hp
                    exact absurd ((hyphenationProposals_technique _ _ _ hp).symm.trans htag) (by decide)
                  · rw [if_neg h9] at hp
                    by_cases h10 : t = "tld"
                    · rw [if_pos h10] at hp
                      exact absurd ((tldProposals_technique _ _ _ hp).symm.trans htag) (by decide)
                    · rw [if_neg h10] at hp
                      by_cases h11 : t = "prefix"
                      · rw [if_pos h11] at hp
                        exact absurd ((prefixProposals_technique _ _ _ hp).symm.trans htag) (by decide)
                      · rw [if_neg h11] at hp
                        by_cases h12 : t = "suffix"
                        · rw [if_pos h12] at hp
                          exact absurd ((suffixProposals_technique _ _ _ hp).symm.trans htag) (by decide)
                        · rw [if_neg h12] at hp
                          by_cases h13 : t = "vowel_swap"
                          · rw [if_pos h13] at hp
                            exact absurd ((vowelSwapProposals_technique _ _ _ hp).symm.trans htag) (by decide)
                          · rw [if_neg h13] at hp
                            by_cases h14 : t = "double_char"
                            · rw [if_pos h14] at hp
                              exact absurd ((doubleCharProposals_technique _ _ _ hp).symm.trans htag) (by decide)
                            · rw [if_neg h14] at hp
                              by_cases h15 : t = "bitsquatting"
                              · rw [if_pos h15] at hp
                                exact hp
                              · rw [if_neg h15] at hp
                                by_cases h16 : t = "subdomain"
                                · rw [if_pos h16] at hp
                                  exact absurd ((subdomainProposals_technique _ _ _ hp).symm.trans htag) (by decide)
                                · rw [if_neg h16] at hp
                                  simp at hp

/-- Claim C5 (amended): every variant's technique tag is one of the
sixteen tags the generator writes — the fifteen technique names plus
`tld_swap`; the spec's own list names the sixteenth `tld`, which never
appears in output. -/
theorem c5_technique_tags (cfg : AnalysisConfig) (v : DomainVariant)
    (hv : v ∈ generate_all cfg) : v.technique ∈ emittedTechniqueTags := by
  obtain ⟨-, -, -, -, -, -, a7, -⟩ :=
    runAdds_spec
      (generatorProposals (_parse_domain cfg.target_domain).1
        (_parse_domain cfg.target_domain).2 cfg.techniques)
      (initState cfg)
  obtain ⟨-, -, -, -, -, -, -, -, -, p, hp, htech, -, -⟩ := a7 v hv
  rw [htech]
  simp only [generatorProposals, List.mem_flatMap] at hp
  obtain ⟨t, -, hpt⟩ := hp
  exact techniqueProposals_tag _ _ _ _ hpt

/-- Claim C5 counterexample: the first variant of a TLD-only run is
tagged `tld_swap`, which is not among the sixteen tags the claim
enumerates (`tld` is listed instead). -/
theorem c5_counterexample :
    ((generate_all cfgTldOnly).map (fun v => v.technique)).head? = some "tld_swap" ∧
    "tld_swap" ∉ specTechniqueTags := by
  decide

/-- Exercises `c5_technique_tags` at the first TLD variant of
`example.com`. -/
theorem c5_witness :
    ((generate_all cfgTldOnly).headD default ∈ generate_all cfgTldOnly) ∧
    ((generate_all cfgTldOnly).headD default).technique ∈ emittedTechniqueTags :=
  ⟨by decide, c5_technique_tags cfgTldOnly _ (by decide)⟩

/-- `Char.toLower` fixes every code point from 97 up (only 65–90 move). -/
theorem char_toLower_fix (c : Char) (h : 97 ≤ c.toNat) : Char.toLower c = c := by
  unfold Char.toLower
  dsimp only
  rw [if_neg (by omega)]

/-- Code points from 97 up are not whitespace. -/
theorem char_isWhitespace_false (c : Char) (h : 97 ≤ c.toNat) : c.isWhitespace = false := by
  unfold Char.isWhitespace
  simp only [Bool.or_eq_false_iff, beq_eq_false_iff_ne, ne_eq]
  refine ⟨⟨⟨?_, ?_⟩, ?_⟩, ?_⟩ <;>
    exact decide_eq_false (by rintro rfl; revert h; decide)

/-- `Char.ofNat` round-trips on the code points the bitsquatting guard
admits. -/
theorem char_ofNat_toNat_lt : ∀ n < 123, (Char.ofNat n).toNat = n := by decide

/-- `dropWhile isWhitespace` is the identity on strings of code points
from 97 up. -/
theorem dropWhile_ws_id (l : List Char) (h : ∀ c ∈ l, 97 ≤ c.toNat) :
    l.dropWhile Char.isWhitespace = l := by
  cases l with
  | nil => rfl
  | cons c rest =>
    rw [List.dropWhile_cons,
      if_neg (by simp [char_isWhitespace_false c (h c (List.mem_cons_self _ _))])]

/-- `_add_variant`'s normalization fixes names made of code points from
97 up — in particular lowercase ASCII names. -/
theorem pyNorm_id (s : String) (h : ∀ c ∈ s.data, 97 ≤ c.toNat) : pyNorm s = s := by
  have hmap : pyLowerL s.data = s.data := by
    unfold pyLowerL
    exact (List.map_congr_left (fun c hc => char_toLower_fix c (h c hc))).trans
      (List.map_id _)
  unfold pyNorm pyStripL
  rw [hmap, dropWhile_ws_id s.data h, dropWhile_ws_id _
    (fun c hc => h c (List.mem_reverse.1 hc)), List.reverse_reverse]

/-- Structure of a bitsquatting proposal: one position, one admissible
bit flip. -/
theorem mem_bitsquattingProposals_spec (name : List Char) (tld : String) (p : Proposal)
    (hp : p ∈ bitsquattingProposals name tld) :
    ∃ i c bit, name.get? i = some c ∧ bit < 8 ∧
      97 ≤ c.toNat ^^^ (1 <<< bit) ∧ c.toNat ^^^ (1 <<< bit) ≤ 122 ∧
      Char.ofNat (c.toNat ^^^ (1 <<< bit)) ≠ c ∧
      p = { name := String.mk (spliceAt name i [Char.ofNat (c.toNat ^^^ (1 <<< bit))]),
            tld := tld, technique := "bitsquatting",
            detail := "Bit flip: " ++ qd (String.mk [c]) ++ " -> "
              ++ qd (String.mk [Char.ofNat (c.toNat ^^^ (1 <<< bit))]) } := by
  simp only [bitsquattingProposals, List.mem_flatMap] at hp
  obtain ⟨ic, hic, bit, hbit, hp⟩ := hp
  by_cases hrange : 97 ≤ ic.2.toNat ^^^ (1 <<< bit) ∧ ic.2.toNat ^^^ (1 <<< bit) ≤ 122
  · rw [if_pos hrange] at hp
    by_cases hne : Char.ofNat (ic.2.toNat ^^^ (1 <<< bit)) ≠ ic.2
    · rw [if_pos hne] at hp
      simp only [List.mem_singleton] at hp
      refine ⟨ic.1, ic.2, bit, ?_, ?_, hrange.1, hrange.2, hne, hp⟩
      · have := List.mem_enum_iff_getElem?.1 hic
        simpa [List.get?_eq_getElem?] using this
      · simpa using hbit
    · rw [if_neg hne] at hp
      simp at hp
  · rw [if_neg hrange] at hp
    simp at hp

/-- Claim C8: for a lowercase-ASCII name, every variant the bitsquatting
technique emits differs from the name at exactly one position; the new
character is a lowercase ASCII letter obtained by flipping exactly one
of the eight low bits of the original character. -/
theorem c8_bitsquatting (cfg : AnalysisConfig) (v : DomainVariant)
    (hlow : ∀ c ∈ (_parse_domain cfg.target_domain).1.data, 97 ≤ c.toNat ∧ c.toNat ≤ 122)
    (hv : v ∈ generate_all cfg) (ht : v.technique = "bitsquatting") :
    ∃ i c cNew bit, (_parse_domain cfg.target_domain).1.data.get? i = some c ∧
      bit < 8 ∧ cNew.toNat = c.toNat ^^^ (1 <<< bit) ∧
      97 ≤ cNew.toNat ∧ cNew.toNat ≤ 122 ∧ cNew ≠ c ∧
      v.variant_domain
        = String.mk ((_parse_domain cfg.target_domain).1.data.take i
            ++ cNew :: (_parse_domain cfg.target_domain).1.data.drop (i + 1))
          ++ "." ++ pyNorm (_parse_domain cfg.target_domain).2 := by
  obtain ⟨-, -, -, -, -, -, a7, -⟩ :=
    runAdds_spec
      (generatorProposals (_parse_domain cfg.target_domain).1
        (_parse_domain cfg.target_domain).2 cfg.techniques)
      (initState cfg)
  obtain ⟨-, -, -, -, -, -, -, -, -, p, hp, htech, -, hdom⟩ := a7 v hv
  simp only [generatorProposals, List.mem_flatMap] at hp
  obtain ⟨t, -, hpt⟩ := hp
  have hbp := techniqueProposals_bitsquatting _ _ _ _ hpt (htech.symm.trans ht)
  obtain ⟨i, c, bit, hget, hbit, hr1, hr2, hne, hpeq⟩ :=
    mem_bitsquattingProposals_spec _ _ _ hbp
  have htnat : (Char.ofNat (c.toNat ^^^ (1 <<< bit))).toNat = c.toNat ^^^ (1 <<< bit) :=
    char_ofNat_toNat_lt _ (by omega)
  refine ⟨i, c, Char.ofNat (c.toNat ^^^ (1 <<< bit)), bit, hget, hbit, htnat, ?_, ?_, hne, ?_⟩
  · omega
  · omega
  · have hnorm : pyNorm (String.mk (spliceAt (_parse_domain cfg.target_domain).1.data i
        [Char.ofNat (c.toNat ^^^ (1 <<< bit))]))
      = String.mk (spliceAt (_parse_domain cfg.target_domain).1.data i
        [Char.ofNat (c.toNat ^^^ (1 <<< bit))]) := by
      apply pyNorm_id
      intro ch hch
      simp only [spliceAt, List.append_assoc, List.mem_append, List.mem_singleton] at hch
      rcases hch with hch | hch | hch
      · exact (hlow ch (List.take_subset _ _ hch)).1
      · subst hch
        omega
      · exact (hlow ch (List.drop_subset _ _ hch)).1
    rw [hdom, hpeq]
    dsimp only
    rw [hnorm]
    have hsplice : spliceAt (_parse_domain cfg.target_domain).1.data i
        [Char.ofNat (c.toNat ^^^ (1 <<< bit))]
      = (_parse_domain cfg.target_domain).1.data.take i
          ++ Char.ofNat (c.toNat ^^^ (1 <<< bit))
            :: (_parse_domain cfg.target_domain).1.data.drop (i + 1) := by
      simp [spliceAt]
    rw [hsplice]

/-- Exercises `c8_bitsquatting` on the bitsquatting-only run for
`ab.com`, at its first emitted variant (`cb.com`). -/
theorem c8_witness :
    (∀ c ∈ (_parse_domain cfgBitsq.target_domain).1.data, 97 ≤ c.toNat ∧ c.toNat ≤ 122) ∧
    ((generate_all cfgBitsq).headD default ∈ generate_all cfgBitsq) ∧
    ((generate_all cfgBitsq).headD default).technique = "bitsquatting" ∧
    (∃ i c cNew bit, (_parse_domain cfgBitsq.target_domain).1.data.get? i = some c ∧
      bit < 8 ∧ cNew.toNat = c.toNat ^^^ (1 <<< bit) ∧
      97 ≤ cNew.toNat ∧ cNew.toNat ≤ 122 ∧ cNew ≠ c ∧
      ((generate_all cfgBitsq).headD default).variant_domain
        = String.mk ((_parse_domain cfgBitsq.target_domain).1.data.take i
            ++ cNew :: (_parse_domain cfgBitsq.target_domain).1.data.drop (i + 1))
          ++ "." ++ pyNorm (_parse_domain cfgBitsq.target_domain).2) :=
  ⟨by decide, by decide, by decide,
    c8_bitsquatting cfgBitsq _ (by decide) (by decide) (by decide)⟩
